/-
Verification development for the dslinter DataFrame checker
(src/dslinter/checkers/dataframe.py) and the introspection-directive
insertion of the type-inference utility.

The astroid syntax tree is shallowly embedded: expressions and statements
are inductive types mirroring the astroid node classes the checker touches,
Python attribute presence (hasattr) becomes a match on the constructors that
carry the corresponding astroid field, and Python exceptions become the
error case of Except. The per-module type-classification dictionary
(self dot _call_types, keyed by node identity) is modelled as the lookup
result for the node under consideration: an Option String argument for
visit_call, and a lookup function for visit_for.
-/
import Mathlib

namespace Dslinter

/-- Python literal values as stored in an astroid Const node. -/
inductive PyVal : Type where
| boolV (b : Bool)
| intV (n : Int)
| strV (s : String)
| noneV
deriving DecidableEq, Repr

/-- Python truthiness of a literal value, as applied by the `not` in
`not self._is_inplace_operation(node)`. -/
def pyTruthy : PyVal → Bool
| .boolV b => b
| .intV n => n != 0
| .strV s => s != ""
| .noneV => false

/-- Astroid expression nodes used by the checker. `name` models Name (load
context), `assignName` models AssignName (store context): both carry the
astroid `name` field. `attributeNode` models both Attribute and AssignAttr,
which carry `expr` and `attrname` (and no `value` and no `name` field).
`subscript` carries `value` and `slice`; `const` carries a bare literal
`value`; `call` carries `func`, `args` and `keywords` (None or a list of
keyword nodes, each an optional argument name — None for **kwargs — and a
value expression). -/
inductive Expr : Type where
| name (id : String)
| assignName (id : String)
| const (value : PyVal)
| attributeNode (expr : Expr) (attrname : String)
| call (func : Expr) (args : List Expr) (keywords : Option (List (Option String × Expr)))
| subscript (value : Expr) (slice : Expr)
| tupleE (elts : List Expr)

/-- Astroid statement nodes relevant to the checker. Bare expressions are
wrapped in an Expr statement (`exprStmt`); `assign` carries a target list,
`annAssign` a single target; `forStmt` carries target, iter and body. -/
inductive Stmt : Type where
| exprStmt (value : Expr)
| assign (targets : List Expr) (value : Expr)
| annAssign (target : Expr) (value : Option Expr)
| forStmt (target : Expr) (iter : Expr) (body : List Stmt)

/-- The astroid class of the direct parent of a Call node, as far as the
checker inspects it through isinstance. In astroid a Call that is the iter
of a For has the For node itself as parent; a Call wrapped as a bare
statement has an Expr statement parent; a Call bound by an assignment has
the Assign (or AnnAssign) node as parent. -/
inductive Parent : Type where
| exprStmt
| assignStmt
| annAssignStmt
| forIter
| attributeParent
| callParent
| subscriptParent
| tupleParent
| keywordParent
deriving DecidableEq, Repr

/-- The tracked DataFrame type name compared against the classification map. -/
def dataframeTypeName : String := "pandas.core.frame.DataFrame"

/-- Models `hasattr(node, "expr")`: among the embedded expression nodes only
Attribute (and AssignAttr) carry an `expr` field. -/
def hasAttrExpr : Expr → Bool
| .attributeNode _ _ => true
| _ => false

/-- Models `hasattr(node, "name")`: Name and AssignName carry a `name` field. -/
def hasAttrName : Expr → Bool
| .name _ => true
| .assignName _ => true
| _ => false

/-- Models `hasattr(node, "value")`: Subscript carries a node-valued `value`
field and Const carries a literal `value` field. -/
def hasAttrValue : Expr → Bool
| .subscript _ _ => true
| .const _ => true
| _ => false

/-- Models `isinstance(node, astroid.nodes.Call)`. -/
def isCall : Expr → Bool
| .call _ _ _ => true
| _ => false

/-- Models `isinstance(parent, astroid.nodes.Expr)`. -/
def isExprStmtParent : Parent → Bool
| .exprStmt => true
| _ => false

/-- Models `isinstance(parent, astroid.nodes.Attribute)`. -/
def isAttributeParent : Parent → Bool
| .attributeParent => true
| _ => false

/-- Models `isinstance(parent, astroid.nodes.Call)`. -/
def isCallParent : Parent → Bool
| .callParent => true
| _ => false

/-- Models `isinstance(parent, astroid.nodes.For)`. -/
def isForParent : Parent → Bool
| .forIter => true
| _ => false

/-- Embeds `DataFrameChecker._is_simple_call_node`: the call is made on an
expression (its func has an `expr` field, i.e. is an Attribute), that
expression is a named thing (has a `name` field), and the parent of the call
is neither an Attribute nor a Call. -/
def is_simple_call_node (func : Expr) (parent : Parent) : Bool :=
  hasAttrExpr func
  && (match func with
      | .attributeNode e _ => hasAttrName e
      | _ => false)
  && !isAttributeParent parent
  && !isCallParent parent

/-- Scans the keyword list for the first keyword whose arg is `inplace` and
returns its literal value (`keyword.value.value`). A non-Const keyword value
has no `value` field, so the attribute access raises: modelled as error. -/
def inplaceKeywordValue : List (Option String × Expr) → Except String PyVal
| [] => .ok (.boolV false)
| (arg, value) :: rest =>
  if arg = some "inplace" then
    match value with
    | .const v => .ok v
    | _ => .error "AttributeError"
  else inplaceKeywordValue rest

/-- Embeds `DataFrameChecker._is_inplace_operation`: when `node.keywords` is
None the result is False; otherwise the literal value of the first `inplace`
keyword is returned, or False when no keyword is named `inplace`. -/
def is_inplace_operation (keywords : Option (List (Option String × Expr))) :
    Except String PyVal :=
  match keywords with
  | Option.none => .ok (.boolV false)
  | Option.some kws => inplaceKeywordValue kws

/-- Embeds `DataFrameChecker._dataframe_is_lost`: the node is in the
classification map with the DataFrame type (`inferredType` is the lookup
result for the node), the operation is not done inplace, and the parent of
the Call is an Expr statement. The conjunction short-circuits as in Python:
the inplace inspection (which can raise) only runs once the type matched. -/
def dataframe_is_lost (inferredType : Option String)
    (keywords : Option (List (Option String × Expr))) (parent : Parent) :
    Except String Bool :=
  if inferredType = some dataframeTypeName then
    match is_inplace_operation keywords with
    | .error e => .error e
    | .ok v => .ok (!pyTruthy v && isExprStmtParent parent)
  else
    .ok false

/-- Embeds `DataFrameChecker._iterating_through_dataframe`: the parent of
the Call is a For node and the node is classified as a DataFrame. The source
also checks `node not in node.parent.body`, which never excludes anything:
the body of a For holds statement nodes, so a Call node is never a member. -/
def iterating_through_dataframe (inferredType : Option String)
    (parent : Parent) : Bool :=
  isForParent parent && decide (inferredType = some dataframeTypeName)

/-- Embeds `DataFrameChecker.visit_call`: emits `dataframe-lost` when the
node is a simple call whose DataFrame result is lost, and
`dataframe-iteration` when the node is iterated through. The simple-call
test short-circuits as in Python, so the inplace inspection only runs for
simple calls. -/
def visit_call (func : Expr) (keywords : Option (List (Option String × Expr)))
    (inferredType : Option String) (parent : Parent) :
    Except String (List String) :=
  match (if is_simple_call_node func parent then
           dataframe_is_lost inferredType keywords parent
         else .ok false) with
  | .error e => .error e
  | .ok lost =>
    .ok ((if lost then ["dataframe-lost"] else [])
         ++ (if iterating_through_dataframe inferredType parent then
               ["dataframe-iteration"] else []))

/-- Embeds `DataFrameChecker._get_for_targets`: the names bound by the for
target, either the AssignName elements of a Tuple target in order, or a
single AssignName target. -/
def get_for_targets (target : Expr) : List String :=
  match target with
  | .tupleE elts =>
    elts.filterMap (fun e =>
      match e with
      | .assignName n => some n
      | _ => none)
  | .assignName n => [n]
  | _ => []

/-- Embeds `DataFrameChecker._get_target_name`: return the `name` field when
present (Name and AssignName); otherwise recurse into the `value` field when
present (Subscript; a Const holds a bare literal as `value`, on which the
recursive hasattr tests both fail, so the source then raises); otherwise
raise. The raised Exception is modelled as the error case. -/
def get_target_name : Expr → Except String String
| .name n => .ok n
| .assignName n => .ok n
| .subscript v _ => get_target_name v
| .const _ => .error "Target name cannot be retrieved."
| _ => .error "Target name cannot be retrieved."

/-- Names of a list of assignment targets, in order, propagating the first
raised exception. -/
def targetListNames : List Expr → Except String (List String)
| [] => .ok []
| t :: rest =>
  match get_target_name t with
  | .error e => .error e
  | .ok n =>
    match targetListNames rest with
    | .error e => .error e
    | .ok ns => .ok (n :: ns)

/-- Embeds `DataFrameChecker._get_assigned_target_names`: for every Assign
statement in the body, the names of all its targets; for every AnnAssign,
the name of its target; other statements contribute nothing. Exceptions
raised by the name retrieval propagate. -/
def get_assigned_target_names : List Stmt → Except String (List String)
| [] => .ok []
| s :: rest =>
  match (match s with
         | .assign targets _ => targetListNames targets
         | .annAssign target _ =>
           match get_target_name target with
           | .error e => .error e
           | .ok n => .ok [n]
         | _ => .ok []) with
  | .error e => .error e
  | .ok ns =>
    match get_assigned_target_names rest with
    | .error e => .error e
    | .ok ms => .ok (ns ++ ms)

/-- Embeds `DataFrameChecker.visit_for`: when the iter of the For is a Call
classified as a DataFrame (`callTypes` models lookup in the per-module
classification dictionary), emit `dataframe-iteration-modification` when any
assigned target name in the body occurs among the for-target names. -/
def visit_for (callTypes : Expr → Option String) (target iter : Expr)
    (body : List Stmt) : Except String (List String) :=
  if isCall iter && decide (callTypes iter = some dataframeTypeName) then
    match get_assigned_target_names body with
    | .error e => .error e
    | .ok assigned =>
      if assigned.any (fun t => (get_for_targets target).contains t) then
        .ok ["dataframe-iteration-modification"]
      else
        .ok []
  else
    .ok []

/-- The introspection directive appended for a receiver name, pinned by the
unit tests: a statement separator followed by a reveal_type call. -/
def revealDirective (receiver : String) : String :=
  "; reveal_type(" ++ receiver ++ ")"

/-- Modelled from the spec: `TypeInference.add_reveal_type_calls` is not
under src (only its unit tests are). Per the spec, each target expression
contributes one introspection directive referencing the receiver name,
appended via a statement separator on the same physical line as the
statement containing the target, targets are processed in source order, and
lines hosting no directive pass through unchanged. A unit source is a list
of physical lines; a target is a pair of its 1-based line number and its
receiver name. `appendDirective` appends one directive to the addressed
line. -/
def appendDirective : List String → Nat → String → List String
| [], _, _ => []
| line :: rest, lineno, receiver =>
  (if lineno = 1 then line ++ revealDirective receiver else line)
    :: appendDirective rest (lineno - 1) receiver

/-- Modelled from the spec: the full rewriting pass appends, for each target
in order, its directive onto its line. -/
def add_reveal_type_calls (lines : List String)
    (targets : List (Nat × String)) : List String :=
  targets.foldl (fun acc t => appendDirective acc t.fst t.snd) lines

/-- Specification-side description of the directives a given 1-based line
receives: the concatenation, in target order, of the directives of the
targets addressed to that line. Used to compare `add_reveal_type_calls`
against the spec sentence. -/
def directivesAt (lineno : Nat) (targets : List (Nat × String)) : String :=
  String.join ((targets.filter (fun t => t.fst = lineno)).map
    (fun t => revealDirective t.snd))

theorem stringJoin_cons (s : String) (l : List String) :
    String.join (s :: l) = s ++ String.join l := by
  simp [String.join_eq, String.ext_iff]

theorem appendDirective_length (lines : List String) (lineno : Nat)
    (receiver : String) :
    (appendDirective lines lineno receiver).length = lines.length := by
  induction lines generalizing lineno with
  | nil => rfl
  | cons line rest ih => simp [appendDirective, ih]

theorem add_reveal_type_calls_length (lines : List String)
    (targets : List (Nat × String)) :
    (add_reveal_type_calls lines targets).length = lines.length := by
  induction targets generalizing lines with
  | nil => rfl
  | cons t ts ih =>
    simpa [add_reveal_type_calls, List.foldl_cons, appendDirective_length]
      using (ih (appendDirective lines t.fst t.snd)).trans
        (appendDirective_length lines t.fst t.snd)

theorem appendDirective_getElem (lines : List String) (lineno : Nat)
    (receiver : String) (i : Nat) (h : i < lines.length)
    (h' : i < (appendDirective lines lineno receiver).length) :
    (appendDirective lines lineno receiver)[i] =
      if lineno = i + 1 then lines[i] ++ revealDirective receiver
      else lines[i] := by
  induction lines generalizing lineno i with
  | nil => exact absurd h (by simp)
  | cons line rest ih =>
    cases i with
    | zero => simp [appendDirective]
    | succ j =>
      have hj : j < rest.length := by simpa using h
      have hj' : j < (appendDirective rest (lineno - 1) receiver).length := by
        simpa [appendDirective_length] using hj
      have hrw := ih (lineno - 1) j hj hj'
      simp only [appendDirective, List.getElem_cons_succ]
      rw [hrw]
      by_cases hcase : lineno = j + 2
      · subst hcase
        simp
      · have hne : lineno - 1 ≠ j + 1 := by
          intro hc
          rcases Nat.eq_or_lt_of_le (Nat.zero_le lineno) with h0 | hpos
          · simp [← h0] at hc
          · exact hcase (by omega)
        simp [hne, hcase]

theorem add_reveal_type_calls_getElem (lines : List String)
    (targets : List (Nat × String)) (i : Nat) (h : i < lines.length)
    (h' : i < (add_reveal_type_calls lines targets).length) :
    (add_reveal_type_calls lines targets)[i] =
      lines[i] ++ directivesAt (i + 1) targets := by
  induction targets generalizing lines with
  | nil => simp [add_reveal_type_calls, directivesAt, String.join]
  | cons t ts ih =>
    have hlen : i < (appendDirective lines t.fst t.snd).length := by
      simpa [appendDirective_length] using h
    have hlen' : i < (add_reveal_type_calls
        (appendDirective lines t.fst t.snd) ts).length := by
      simpa [add_reveal_type_calls_length, appendDirective_length] using h
    show (add_reveal_type_calls (appendDirective lines t.fst t.snd) ts)[i]
      = lines[i] ++ directivesAt (i + 1) (t :: ts)
    rw [ih (appendDirective lines t.fst t.snd) hlen hlen']
    rw [appendDirective_getElem lines t.fst t.snd i h hlen]
    by_cases hcase : t.fst = i + 1
    · simp only [directivesAt, List.filter_cons, hcase, decide_True, if_pos,
        List.map_cons, stringJoin_cons, String.append_assoc]
    · simp [directivesAt, List.filter_cons, hcase]

theorem directive_count (lines : List String)
    (targets : List (Nat × String))
    (hrange : ∀ t ∈ targets, 1 ≤ t.fst ∧ t.fst ≤ lines.length) :
    ∑ i ∈ Finset.range lines.length,
        (targets.filter (fun t => t.fst = i + 1)).length = targets.length := by
  induction targets with
  | nil => simp
  | cons t ts ih =>
    have ht := hrange t (List.mem_cons_self t ts)
    have hts : ∀ u ∈ ts, 1 ≤ u.fst ∧ u.fst ≤ lines.length := by
      intro u hu
      exact hrange u (List.mem_cons_of_mem t hu)
    have hsplit : ∀ i : Nat,
        ((t :: ts).filter (fun u => u.fst = i + 1)).length =
          (if t.fst - 1 = i then 1 else 0)
            + (ts.filter (fun u => u.fst = i + 1)).length := by
      intro i
      by_cases hcase : t.fst = i + 1
      · have : t.fst - 1 = i := by omega
        simp [List.filter_cons, hcase, this]
        omega
      · have : t.fst - 1 ≠ i := by omega
        simp [List.filter_cons, hcase, this]
    calc
      ∑ i ∈ Finset.range lines.length,
          ((t :: ts).filter (fun u => u.fst = i + 1)).length
        = ∑ i ∈ Finset.range lines.length,
            ((if t.fst - 1 = i then 1 else 0)
              + (ts.filter (fun u => u.fst = i + 1)).length) := by
          exact Finset.sum_congr rfl (fun i _ => hsplit i)
      _ = (∑ i ∈ Finset.range lines.length,
            (if t.fst - 1 = i then 1 else 0))
          + ∑ i ∈ Finset.range lines.length,
            (ts.filter (fun u => u.fst = i + 1)).length := by
          rw [Finset.sum_add_distrib]
      _ = 1 + ts.length := by
          rw [ih hts]
          congr 1
          rw [Finset.sum_ite_eq (Finset.range lines.length) (t.fst - 1)
            (fun _ => 1)]
          have : t.fst - 1 ∈ Finset.range lines.length := by
            simp only [Finset.mem_range]
            omega
          simp [this]
      _ = (t :: ts).length := by simp [Nat.add_comm]

theorem dataframe_is_lost_parent (inferredType : Option String)
    (kws : Option (List (Option String × Expr))) (parent : Parent)
    (h : dataframe_is_lost inferredType kws parent = Except.ok true) :
    isExprStmtParent parent = true := by
  unfold dataframe_is_lost at h
  by_cases hc : inferredType = some dataframeTypeName
  · rw [if_pos hc] at h
    cases hkv : is_inplace_operation kws with
    | error e => rw [hkv] at h; cases h
    | ok v =>
      rw [hkv] at h
      have hb : (!pyTruthy v && isExprStmtParent parent) = true := by
        injection h
      simp only [Bool.and_eq_true] at hb
      exact hb.2
  · rw [if_neg hc] at h
    have : false = true := by injection h
    cases this

theorem visit_call_lost_parent (func : Expr)
    (kws : Option (List (Option String × Expr)))
    (inferredType : Option String) (parent : Parent) (msgs : List String)
    (h : visit_call func kws inferredType parent = Except.ok msgs)
    (hmem : "dataframe-lost" ∈ msgs) : isExprStmtParent parent = true := by
  unfold visit_call at h
  cases hm : (if is_simple_call_node func parent then
      dataframe_is_lost inferredType kws parent else Except.ok false) with
  | error e => rw [hm] at h; cases h
  | ok lost =>
    rw [hm] at h
    have hmsgs : (if lost then ["dataframe-lost"] else [])
        ++ (if iterating_through_dataframe inferredType parent then
              ["dataframe-iteration"] else []) = msgs := by
      injection h
    cases lost with
    | false =>
      rw [← hmsgs] at hmem
      by_cases hi : iterating_through_dataframe inferredType parent = true <;>
        simp [hi] at hmem
    | true =>
      cases hs : is_simple_call_node func parent with
      | false =>
        rw [hs] at hm
        simp at hm
      | true =>
        rw [hs] at hm
        simp only [if_pos] at hm
        exact dataframe_is_lost_parent inferredType kws parent hm

theorem visit_call_iteration_parent (func : Expr)
    (kws : Option (List (Option String × Expr)))
    (inferredType : Option String) (parent : Parent) (msgs : List String)
    (h : visit_call func kws inferredType parent = Except.ok msgs)
    (hmem : "dataframe-iteration" ∈ msgs) : isForParent parent = true := by
  unfold visit_call at h
  cases hm : (if is_simple_call_node func parent then
      dataframe_is_lost inferredType kws parent else Except.ok false) with
  | error e => rw [hm] at h; cases h
  | ok lost =>
    rw [hm] at h
    have hmsgs : (if lost then ["dataframe-lost"] else [])
        ++ (if iterating_through_dataframe inferredType parent then
              ["dataframe-iteration"] else []) = msgs := by
      injection h
    rw [← hmsgs] at hmem
    by_cases hi : iterating_through_dataframe inferredType parent = true
    · have hb : (isForParent parent
          && decide (inferredType = some dataframeTypeName)) = true := by
        simpa [iterating_through_dataframe] using hi
      simp only [Bool.and_eq_true] at hb
      exact hb.1
    · cases lost <;> simp [hi] at hmem

/-- C1: for a call a.f() whose receiver is a plain name classified as the
tracked DataFrame type, not carrying a truthy inplace keyword, and whose
direct parent is a bare expression statement, exactly one dataframe-lost
finding is emitted; the same call as the value of an assignment emits no
finding. -/
theorem claim1_lost_result_simple_call (a f : String)
    (kws : Option (List (Option String × Expr))) (v : PyVal)
    (hkw : is_inplace_operation kws = Except.ok v) (hv : pyTruthy v = false) :
    visit_call (.attributeNode (.name a) f) kws (some dataframeTypeName)
        .exprStmt = Except.ok ["dataframe-lost"]
    ∧ visit_call (.attributeNode (.name a) f) kws (some dataframeTypeName)
        .assignStmt = Except.ok [] := by
  constructor <;>
    simp [visit_call, is_simple_call_node, hasAttrExpr, hasAttrName,
      isAttributeParent, isCallParent, dataframe_is_lost, hkw, hv,
      iterating_through_dataframe, isForParent, isExprStmtParent]

theorem claim1_lost_result_simple_call_witness :
    visit_call (.attributeNode (.name "a") "f") Option.none
        (some dataframeTypeName) .exprStmt = Except.ok ["dataframe-lost"]
    ∧ visit_call (.attributeNode (.name "a") "f") Option.none
        (some dataframeTypeName) .assignStmt = Except.ok [] :=
  claim1_lost_result_simple_call "a" "f" Option.none (PyVal.boolV false)
    rfl rfl

/-- C3: a call classified as the tracked DataFrame type whose direct parent
is a For node (i.e. it is the iterable clause) receives exactly one
dataframe-iteration finding, whatever the loop body holds (the body is not
consulted); and the iteration test never fires for a call whose parent is
not a For node, so calls merely inside the body are never flagged by this
rule. -/
theorem claim3_iteration_flagging (func : Expr)
    (kws : Option (List (Option String × Expr)))
    (hkw : ∃ v, is_inplace_operation kws = Except.ok v) :
    visit_call func kws (some dataframeTypeName) .forIter
      = Except.ok ["dataframe-iteration"]
    ∧ ∀ (inferredType : Option String) (parent : Parent),
        isForParent parent = false →
        iterating_through_dataframe inferredType parent = false := by
  obtain ⟨v, hkw⟩ := hkw
  constructor
  · unfold visit_call
    cases hs : is_simple_call_node func .forIter <;>
      simp [hs, dataframe_is_lost, hkw, iterating_through_dataframe,
        isForParent, isExprStmtParent]
  · intro inferredType parent hp
    simp [iterating_through_dataframe, hp]

theorem claim3_iteration_flagging_witness :
    visit_call (.attributeNode (.name "df") "iterrows") Option.none
        (some dataframeTypeName) .forIter = Except.ok ["dataframe-iteration"]
    ∧ iterating_through_dataframe (some dataframeTypeName) .exprStmt
        = false :=
  ⟨(claim3_iteration_flagging (.attributeNode (.name "df") "iterrows")
      Option.none ⟨PyVal.boolV false, rfl⟩).1,
   (claim3_iteration_flagging (.attributeNode (.name "df") "iterrows")
      Option.none ⟨PyVal.boolV false, rfl⟩).2
     (some dataframeTypeName) .exprStmt rfl⟩

/-- C7: a call whose classification-map lookup is not the tracked DataFrame
type (in particular a call absent from the map, lookup result none) is never
flagged: visit_call emits nothing, and visit_for emits nothing when the iter
lookup is not the tracked type. -/
theorem claim7_unknown_type_never_flagged (func : Expr)
    (kws : Option (List (Option String × Expr)))
    (inferredType : Option String) (parent : Parent)
    (h : inferredType ≠ some dataframeTypeName) :
    visit_call func kws inferredType parent = Except.ok []
    ∧ ∀ (callTypes : Expr → Option String) (target iter : Expr)
        (body : List Stmt), callTypes iter ≠ some dataframeTypeName →
        visit_for callTypes target iter body = Except.ok [] := by
  constructor
  · unfold visit_call
    cases hs : is_simple_call_node func parent <;>
      simp [hs, dataframe_is_lost, h, iterating_through_dataframe]
  · intro callTypes target iter body hct
    simp [visit_for, hct]

theorem claim7_unknown_type_never_flagged_witness :
    visit_call (.attributeNode (.name "a") "f") Option.none Option.none
        .exprStmt = Except.ok []
    ∧ visit_for (fun _ => Option.none) (.assignName "row")
        (.call (.attributeNode (.name "df") "iterrows") [] Option.none)
        [] = Except.ok [] :=
  ⟨(claim7_unknown_type_never_flagged (.attributeNode (.name "a") "f")
      Option.none Option.none .exprStmt (by simp [dataframeTypeName])).1,
   (claim7_unknown_type_never_flagged (.attributeNode (.name "a") "f")
      Option.none Option.none .exprStmt (by simp [dataframeTypeName])).2
     (fun _ => Option.none) (.assignName "row")
     (.call (.attributeNode (.name "df") "iterrows") [] Option.none)
     [] (by simp [dataframeTypeName])⟩

/-- C8: the chained call df.abs().sum() standing alone as a statement
produces zero lost-result findings, even with both calls classified as
DataFrame: the inner call has an Attribute parent, and the outer call is
made on a Call rather than a named expression. -/
theorem claim8_chained_call_no_finding :
    visit_call (.attributeNode (.name "df") "abs") Option.none
        (some dataframeTypeName) .attributeParent = Except.ok []
    ∧ visit_call
        (.attributeNode
          (.call (.attributeNode (.name "df") "abs") [] Option.none) "sum")
        Option.none (some dataframeTypeName) .exprStmt = Except.ok [] := by
  constructor <;> rfl

/-- C10: a single visit of one call never emits both the dataframe-lost and
the dataframe-iteration findings: the former requires an Expr-statement
parent and the latter a For parent, which are mutually exclusive. -/
theorem claim10_lost_iteration_exclusive (func : Expr)
    (kws : Option (List (Option String × Expr)))
    (inferredType : Option String) (parent : Parent) (msgs : List String)
    (h : visit_call func kws inferredType parent = Except.ok msgs) :
    ¬ ("dataframe-lost" ∈ msgs ∧ "dataframe-iteration" ∈ msgs) := by
  rintro ⟨hlost, hiter⟩
  have h1 := visit_call_lost_parent func kws inferredType parent msgs h hlost
  have h2 := visit_call_iteration_parent func kws inferredType parent msgs h
    hiter
  cases parent <;> simp [isExprStmtParent, isForParent] at h1 h2

theorem claim10_lost_iteration_exclusive_witness :
    ¬ ("dataframe-lost" ∈ ["dataframe-lost"]
        ∧ "dataframe-iteration" ∈ ["dataframe-lost"]) :=
  claim10_lost_iteration_exclusive (.attributeNode (.name "a") "f")
    Option.none (some dataframeTypeName) .exprStmt ["dataframe-lost"] rfl

theorem inplaceKeywordValue_truthy_iff (kws : List (Option String × Expr))
    (hdup : (kws.filter (fun kw => kw.fst = some "inplace")).length ≤ 1)
    (hconst : ∀ kw ∈ kws, kw.fst = some "inplace" →
      ∃ v, kw.snd = Expr.const v) :
    (∃ v, inplaceKeywordValue kws = Except.ok v ∧ pyTruthy v = true) ↔
      ∃ kw ∈ kws, kw.fst = some "inplace" ∧
        ∃ v, kw.snd = Expr.const v ∧ pyTruthy v = true := by
  induction kws with
  | nil => simp [inplaceKeywordValue, pyTruthy]
  | cons kw rest ih =>
    obtain ⟨arg, val⟩ := kw
    by_cases harg : arg = some "inplace"
    · subst harg
      obtain ⟨v, hv⟩ := hconst (some "inplace", val) (by simp) rfl
      simp only at hv
      subst hv
      have hrest : ∀ kw ∈ rest, ¬ kw.fst = some "inplace" := by
        intro kw hkw hfst
        have hfil : ((some "inplace", Expr.const v) :: rest).filter
            (fun kw => kw.fst = some "inplace") =
            (some "inplace", Expr.const v) :: rest.filter
              (fun kw => kw.fst = some "inplace") := by
          simp [List.filter_cons]
        rw [hfil] at hdup
        simp only [List.length_cons] at hdup
        have h0 : (rest.filter
            (fun kw => kw.fst = some "inplace")).length = 0 := by omega
        have hnil := List.length_eq_zero.mp h0
        have hnp := List.filter_eq_nil_iff.mp hnil kw hkw
        simp [hfst] at hnp
      constructor
      · rintro ⟨w, hw, htw⟩
        have hww : v = w := by
          simpa [inplaceKeywordValue] using hw
        subst hww
        exact ⟨(some "inplace", Expr.const v), by simp, rfl, v, rfl, htw⟩
      · rintro ⟨kw, hkw, hfst, w, hvw, htw⟩
        rcases List.mem_cons.mp hkw with rfl | hmem
        · have hwv : v = w := by simpa using hvw
          subst hwv
          exact ⟨v, by simp [inplaceKeywordValue], htw⟩
        · exact absurd hfst (hrest kw hmem)
    · have hstep : inplaceKeywordValue ((arg, val) :: rest)
          = inplaceKeywordValue rest := by
        simp [inplaceKeywordValue, harg]
      have hdup' : (rest.filter
          (fun kw => kw.fst = some "inplace")).length ≤ 1 := by
        simpa [List.filter_cons, harg] using hdup
      have hconst' : ∀ kw ∈ rest, kw.fst = some "inplace" →
          ∃ v, kw.snd = Expr.const v :=
        fun kw hkw => hconst kw (List.mem_cons_of_mem _ hkw)
      rw [hstep, ih hdup' hconst']
      constructor
      · rintro ⟨kw, hkw, hfst, hex⟩
        exact ⟨kw, List.mem_cons_of_mem _ hkw, hfst, hex⟩
      · rintro ⟨kw, hkw, hfst, hex⟩
        rcases List.mem_cons.mp hkw with rfl | hmem
        · exact absurd hfst harg
        · exact ⟨kw, hmem, hfst, hex⟩

/-- C2: a call is classified as in-place exactly when its keyword list
contains a keyword named inplace whose literal value is truthy; a keyword
list without such a keyword, or an absent (None) keyword list, means not
in-place. Stated over keyword lists whose inplace entries hold literal
values and where, as Python syntax guarantees, the inplace keyword occurs
at most once. -/
theorem claim2_inplace_iff_truthy_literal (kws : List (Option String × Expr))
    (hdup : (kws.filter (fun kw => kw.fst = some "inplace")).length ≤ 1)
    (hconst : ∀ kw ∈ kws, kw.fst = some "inplace" →
      ∃ v, kw.snd = Expr.const v) :
    ((∃ v, is_inplace_operation (some kws) = Except.ok v ∧ pyTruthy v = true)
      ↔ ∃ kw ∈ kws, kw.fst = some "inplace" ∧
          ∃ v, kw.snd = Expr.const v ∧ pyTruthy v = true)
    ∧ is_inplace_operation Option.none = Except.ok (PyVal.boolV false) :=
  ⟨inplaceKeywordValue_truthy_iff kws hdup hconst, rfl⟩

theorem claim2_inplace_iff_truthy_literal_witness :
    ((∃ v, is_inplace_operation (some [(some "inplace",
        Expr.const (PyVal.boolV true))]) = Except.ok v ∧ pyTruthy v = true)
      ↔ ∃ kw ∈ [(some "inplace", Expr.const (PyVal.boolV true))],
          kw.fst = some "inplace" ∧
          ∃ v, kw.snd = Expr.const v ∧ pyTruthy v = true)
    ∧ is_inplace_operation Option.none = Except.ok (PyVal.boolV false) :=
  claim2_inplace_iff_truthy_literal
    [(some "inplace", Expr.const (PyVal.boolV true))]
    (by simp)
    (by intro kw hkw hfst
        rcases List.mem_singleton.mp hkw with rfl
        exact ⟨PyVal.boolV true, rfl⟩)

/-- C4: for a loop whose iterable is a call classified as the tracked
DataFrame type and whose body yields assigned target names without raising:
when some assigned name is among the names bound by the loop target, exactly
one dataframe-iteration-modification finding is emitted; when no assigned
name is bound by the loop target, none is emitted. -/
theorem claim4_iteration_modification (callTypes : Expr → Option String)
    (target iter : Expr) (body : List Stmt) (assigned : List String)
    (hiter : isCall iter = true)
    (htype : callTypes iter = some dataframeTypeName)
    (hassigned : get_assigned_target_names body = Except.ok assigned) :
    ((∃ n ∈ assigned, n ∈ get_for_targets target) →
      visit_for callTypes target iter body
        = Except.ok ["dataframe-iteration-modification"])
    ∧ ((∀ n ∈ assigned, n ∉ get_for_targets target) →
      visit_for callTypes target iter body = Except.ok []) := by
  constructor
  · rintro ⟨n, hn, hmem⟩
    simp [visit_for, hiter, htype, hassigned]
    exact ⟨n, hn, hmem⟩
  · intro hnone
    simp [visit_for, hiter, htype, hassigned]
    exact hnone

theorem claim4_iteration_modification_witness :
    visit_for (fun _ => some dataframeTypeName) (.assignName "row")
        (.call (.attributeNode (.name "df") "iterrows") [] Option.none)
        [Stmt.assign [.subscript (.assignName "row") (.const (.strV "x"))]
          (.const (.intV 1))]
      = Except.ok ["dataframe-iteration-modification"]
    ∧ visit_for (fun _ => some dataframeTypeName) (.assignName "row")
        (.call (.attributeNode (.name "df") "iterrows") [] Option.none)
        [Stmt.exprStmt (.call (.name "print") [.name "row"] Option.none)]
      = Except.ok [] :=
  ⟨(claim4_iteration_modification (fun _ => some dataframeTypeName)
      (.assignName "row")
      (.call (.attributeNode (.name "df") "iterrows") [] Option.none)
      [Stmt.assign [.subscript (.assignName "row") (.const (.strV "x"))]
        (.const (.intV 1))]
      ["row"] rfl rfl rfl).1 ⟨"row", by simp, by simp [get_for_targets]⟩,
   (claim4_iteration_modification (fun _ => some dataframeTypeName)
      (.assignName "row")
      (.call (.attributeNode (.name "df") "iterrows") [] Option.none)
      [Stmt.exprStmt (.call (.name "print") [.name "row"] Option.none)]
      [] rfl rfl rfl).2 (by simp)⟩

/-- C5 counterexample: an attribute target such as row.x is not unwrapped to
its root name; the astroid AssignAttr node carries an expr field but neither
a name nor a value field, so the retrieval raises instead of returning the
root name row. -/
theorem claim5_attribute_target_counterexample :
    get_target_name (.attributeNode (.assignName "row") "x")
      ≠ Except.ok "row" := by
  simp [get_target_name]

/-- C5 (amended): during mutation detection a subscript target such as
row[x] is recursively unwrapped through its value field and yields the root
name row; an attribute target such as row.x has neither a name nor a value
field and raises the internal retrieval error instead of being unwrapped. -/
theorem claim5_target_unwrapping (r a : String) (sl e : Expr) :
    get_target_name (.subscript (.assignName r) sl) = Except.ok r
    ∧ get_target_name (.attributeNode e a)
        = Except.error "Target name cannot be retrieved." := by
  constructor <;> rfl

theorem claim5_target_unwrapping_witness :
    get_target_name (.subscript (.assignName "row") (.const (.strV "x")))
      = Except.ok "row"
    ∧ get_target_name (.attributeNode (.assignName "row") "x")
        = Except.error "Target name cannot be retrieved." :=
  claim5_target_unwrapping "row" "x" (.const (.strV "x")) (.assignName "row")

/-- C6: when an assignment target has neither a name field nor a value
field, the name retrieval raises, and the whole mutation-detection pass on a
loop over a DataFrame-classified call propagates the raised error instead of
returning normally without a violation. -/
theorem claim6_unresolvable_target_raises (t val : Expr)
    (hname : hasAttrName t = false) (hvalue : hasAttrValue t = false) :
    get_target_name t = Except.error "Target name cannot be retrieved."
    ∧ ∀ (callTypes : Expr → Option String) (target iter : Expr),
        isCall iter = true → callTypes iter = some dataframeTypeName →
        visit_for callTypes target iter [Stmt.assign [t] val]
          = Except.error "Target name cannot be retrieved." := by
  have h1 : get_target_name t
      = Except.error "Target name cannot be retrieved." := by
    cases t with
    | name n => exact absurd hname (by simp [hasAttrName])
    | assignName n => exact absurd hname (by simp [hasAttrName])
    | subscript v s => exact absurd hvalue (by simp [hasAttrValue])
    | const v => exact absurd hvalue (by simp [hasAttrValue])
    | attributeNode e a => rfl
    | call f args k => rfl
    | tupleE es => rfl
  refine ⟨h1, ?_⟩
  intro callTypes target iter hc ht
  simp [visit_for, hc, ht, get_assigned_target_names, targetListNames, h1]

theorem claim6_unresolvable_target_raises_witness :
    get_target_name (.attributeNode (.assignName "row") "y")
      = Except.error "Target name cannot be retrieved."
    ∧ visit_for (fun _ => some dataframeTypeName) (.assignName "row")
        (.call (.attributeNode (.name "df") "iterrows") [] Option.none)
        [Stmt.assign [.attributeNode (.assignName "row") "y"]
          (.const (.intV 1))]
      = Except.error "Target name cannot be retrieved." :=
  ⟨(claim6_unresolvable_target_raises
      (.attributeNode (.assignName "row") "y") (.const (.intV 1))
      rfl rfl).1,
   (claim6_unresolvable_target_raises
      (.attributeNode (.assignName "row") "y") (.const (.intV 1))
      rfl rfl).2 (fun _ => some dataframeTypeName) (.assignName "row")
     (.call (.attributeNode (.name "df") "iterrows") [] Option.none)
     rfl rfl⟩

theorem add_reveal_type_calls_matches_unit_tests :
    add_reveal_type_calls ["a = b.c(d)"] [(1, "b")]
      = ["a = b.c(d); reveal_type(b)"]
    ∧ add_reveal_type_calls ["a = b.c(d)", "x = 5 ", "e = f.g()"]
        [(1, "b"), (3, "f")]
      = ["a = b.c(d); reveal_type(b)", "x = 5 ", "e = f.g(); reveal_type(f)"]
    := by
  constructor <;> rfl

/-- C9: introspection-directive insertion is a line-preserving round trip
(modelled from the spec, since the utility itself is not among the source
files, and pinned by its unit tests): for targets whose line numbers address
existing lines, the rewritten unit has the same number of physical lines;
every line equals the original line followed by the directives of exactly
the targets addressed to it, joined in source order by the statement
separator; a line hosting no target passes through unchanged; and the total
number of inserted directives equals the number of targets. -/
theorem claim9_directive_insertion_round_trip (lines : List String)
    (targets : List (Nat × String))
    (hrange : ∀ t ∈ targets, 1 ≤ t.fst ∧ t.fst ≤ lines.length) :
    (add_reveal_type_calls lines targets).length = lines.length
    ∧ (∀ (i : Nat) (h : i < lines.length)
        (h' : i < (add_reveal_type_calls lines targets).length),
        (add_reveal_type_calls lines targets)[i]
          = lines[i] ++ directivesAt (i + 1) targets)
    ∧ (∀ (i : Nat) (h : i < lines.length)
        (h' : i < (add_reveal_type_calls lines targets).length),
        targets.filter (fun t => t.fst = i + 1) = [] →
        (add_reveal_type_calls lines targets)[i] = lines[i])
    ∧ ∑ i ∈ Finset.range lines.length,
        (targets.filter (fun t => t.fst = i + 1)).length
      = targets.length := by
  refine ⟨add_reveal_type_calls_length lines targets, ?_, ?_,
    directive_count lines targets hrange⟩
  · intro i h h'
    exact add_reveal_type_calls_getElem lines targets i h h'
  · intro i h h' hfil
    rw [add_reveal_type_calls_getElem lines targets i h h']
    simp only [directivesAt, hfil, List.map_nil]
    exact String.append_empty lines[i]

theorem claim9_directive_insertion_round_trip_witness :
    (add_reveal_type_calls ["a = b.c(d)", "x = 5 ", "e = f.g()"]
        [(1, "b"), (3, "f")]).length = 3
    ∧ (add_reveal_type_calls ["a = b.c(d)", "x = 5 ", "e = f.g()"]
        [(1, "b"), (3, "f")]).get ⟨1, by decide⟩
        = "x = 5 " ++ directivesAt 2 [(1, "b"), (3, "f")]
    ∧ ∑ i ∈ Finset.range 3,
        ([(1, "b"), (3, "f")].filter (fun t => t.fst = i + 1)).length = 2 :=
  ⟨(claim9_directive_insertion_round_trip
      ["a = b.c(d)", "x = 5 ", "e = f.g()"] [(1, "b"), (3, "f")]
      (by decide)).1,
   (claim9_directive_insertion_round_trip
      ["a = b.c(d)", "x = 5 ", "e = f.g()"] [(1, "b"), (3, "f")]
      (by decide)).2.1 1 (by decide) (by decide),
   (claim9_directive_insertion_round_trip
      ["a = b.c(d)", "x = 5 ", "e = f.g()"] [(1, "b"), (3, "f")]
      (by decide)).2.2.2⟩

end Dslinter
